import Mathlib

/-!
Verification of the `@effectionx/inline` SWC transform (src/inline/swc/src/lib.rs).

The transform rewrites every delegating yield (`yield* e`) that occurs inside a
generator function body into `(yield $$inline(e))`, injects an import for the
helper when a rewrite occurred in a module, honors a `"no inline"` file-level
directive and a `@noinline` function-level comment.

The development below is a shallow embedding of the Rust visitor: a fragment of
the swc ECMAScript AST covering the node kinds the transform inspects or
constructs, the visitor state struct, and the overridden `visit_mut_*` methods
as explicit state-passing functions.
-/

set_option maxRecDepth 4000

namespace InlineSwc

/-- Source constant INLINE_BINDING: the private identifier used for the imported
inline function. -/
def INLINE_BINDING : String := "$$inline"

/-- Source constant INLINE_MODULE: the module specifier for the inline import. -/
def INLINE_MODULE : String := "@effectionx/inline"

/-- Source constant NO_INLINE_DIRECTIVE: the directive string that disables the
inline transform. -/
def NO_INLINE_DIRECTIVE : String := "no inline"

/-- swc CommentKind. -/
inductive CommentKind : Type where
  | line : CommentKind
  | block : CommentKind
  deriving DecidableEq

/-- swc Comment: a comment with its kind and text. -/
structure Comment : Type where
  kind : CommentKind
  text : String

/-- The comment-lookup capability: `get_leading`, keyed by a span's low position
(`span.lo`). Models the `dyn Comments` handle the visitor optionally holds. -/
abbrev Comments : Type := Nat → Option (List Comment)

/-- Boolean list-prefix test on characters, embedding the byte-prefix step of
Rust substring search. -/
def listPrefixOf : List Char → List Char → Bool
  | [], _ => true
  | _ :: _, [] => false
  | a :: as, b :: bs => a == b && listPrefixOf as bs

/-- Boolean list-infix test on characters. -/
def listInfixOf (pat : List Char) : List Char → Bool
  | [] => listPrefixOf pat []
  | b :: bs => listPrefixOf pat (b :: bs) || listInfixOf pat bs

/-- Embedding of Rust `str::contains` (substring search), used by the
`@noinline` comment check. -/
def strContains (hay pat : String) : Bool :=
  listInfixOf pat.toList hay.toList

/- The AST fragment.  Mirrors the swc node kinds that the transform inspects
(string literals in directives, yield expressions, functions, statements) or
constructs (parenthesized expressions, call expressions, identifiers).
`OptExpr`, `Args` and `StmtList` are the `Option<Box<Expr>>`,
`Vec<ExprOrSpread>` and `Vec<Stmt>` occurrences inside the recursion, spelled
as members of the mutual family so that structural recursion is direct. -/
mutual

/-- Expression nodes (swc Expr fragment). `call callee args hasTypeArgs`:
`hasTypeArgs` is whether `type_args` is `Some`; each argument carries its
`spread` flag. `yieldE delegate arg` is swc YieldExpr. -/
inductive Expr : Type where
  | lit : String → Expr
  | ident : String → Expr
  | yieldE : Bool → OptExpr → Expr
  | call : Expr → Args → Bool → Expr
  | paren : Expr → Expr
  | fnExpr : Function → Expr

/-- `Option Expr` inside the mutual family (swc `Option<Box<Expr>>`). -/
inductive OptExpr : Type where
  | none : OptExpr
  | some : Expr → OptExpr

/-- Call-argument list (swc `Vec<ExprOrSpread>`): each cell is
`(spread flag, expression)`. -/
inductive Args : Type where
  | nil : Args
  | cons : Bool → Expr → Args → Args

/-- swc Function: `mk span is_generator body`, with the span reduced to its
low position (the only part the transform reads). -/
inductive Function : Type where
  | mk : Nat → Bool → StmtList → Function

/-- Statement nodes (swc Stmt fragment). -/
inductive Stmt : Type where
  | exprStmt : Expr → Stmt
  | varDecl : String → OptExpr → Stmt
  | ret : OptExpr → Stmt
  | fnDecl : String → Function → Stmt

/-- `Vec<Stmt>` inside the mutual family. -/
inductive StmtList : Type where
  | nil : StmtList
  | cons : Stmt → StmtList → StmtList

end

/-- swc ImportSpecifier (named form): `named local imported is_type_only`. -/
inductive ImportSpecifier : Type where
  | named : String → Option String → Bool → ImportSpecifier

/-- swc ImportDecl fragment: specifiers, source module string, type_only flag. -/
structure ImportDecl : Type where
  specifiers : List ImportSpecifier
  src : String
  type_only : Bool

/-- swc ModuleItem: either a statement or a module declaration.  The only
module declaration the transform constructs or tests is an import. -/
inductive ModuleItem : Type where
  | stmtItem : Stmt → ModuleItem
  | importItem : ImportDecl → ModuleItem

/-- swc Module: ordered top-level items. -/
structure Module : Type where
  body : List ModuleItem

/-- swc Script: ordered top-level statements (a script has no module
declarations, hence no import items, by the shape of the type). -/
structure Script : Type where
  body : List Stmt

/-- swc Program: module form or script form. -/
inductive Program : Type where
  | mod : Module → Program
  | script : Script → Program

/-- The visitor state struct InlineTransformVisitor. -/
structure InlineTransformVisitor : Type where
  generator_depth : Nat
  transformed : Bool
  skip_file : Bool
  comments : Option Comments

/-- InlineTransformVisitor::new. -/
def InlineTransformVisitor.new : InlineTransformVisitor :=
  { generator_depth := 0, transformed := false, skip_file := false,
    comments := Option.none }

/-- InlineTransformVisitor::with_comments. -/
def with_comments (st : InlineTransformVisitor) (cm : Comments) :
    InlineTransformVisitor :=
  { st with comments := Option.some cm }

/-- The visitor state produced by the plugin entry point for a given optional
comment handle: `new()`, then `with_comments` when the handle is present. -/
def mkVisitor (cm : Option Comments) : InlineTransformVisitor :=
  { generator_depth := 0, transformed := false, skip_file := false,
    comments := cm }

/-- Core of has_noinline_annotation, on the raw comment handle: leading
comments at the position contain a block comment whose text contains
`@noinline`. -/
def hasNoinlineCm (cm : Option Comments) (lo : Nat) : Bool :=
  match cm with
  | Option.some comments =>
      match comments lo with
      | Option.some leading =>
          leading.any fun c =>
            c.kind == CommentKind.block && strContains c.text "@noinline"
      | Option.none => false
  | Option.none => false

/-- Embedding of InlineTransformVisitor::has_noinline_annotation. -/
def has_noinline (st : InlineTransformVisitor) (lo : Nat) : Bool :=
  hasNoinlineCm st.comments lo

/-- inline_ident: the `$$inline` identifier. -/
def inline_ident : Expr := Expr.ident INLINE_BINDING

/-- inline_call: wrap an expression in `$$inline(expr)` — one positional
non-spread argument, no type arguments. -/
def inline_call (arg : Expr) : Expr :=
  Expr.call inline_ident (Args.cons false arg Args.nil) false

/-- yield_inline: build `(yield $$inline(expr))`, a parenthesized non-delegate
yield wrapping an inline call. -/
def yield_inline (arg : Expr) : Expr :=
  Expr.paren (Expr.yieldE false (OptExpr.some (inline_call arg)))

/-- inline_import: the injected declaration
`import \x7b inline as $$inline \x7d from "@effectionx/inline";`. -/
def inline_import : ModuleItem :=
  ModuleItem.importItem
    { specifiers := [ImportSpecifier.named INLINE_BINDING
        (Option.some "inline") false],
      src := INLINE_MODULE,
      type_only := false }

/-- is_no_inline_directive: the statement is a bare string-literal expression
statement with value `"no inline"`. -/
def is_no_inline_directive : Stmt → Bool
  | Stmt.exprStmt (Expr.lit v) => v == NO_INLINE_DIRECTIVE
  | _ => false

/-- is_no_inline_module_directive. -/
def is_no_inline_module_directive : ModuleItem → Bool
  | ModuleItem.stmtItem s => is_no_inline_directive s
  | _ => false

/-- `body.first().is_some_and(is_no_inline_module_directive)`. -/
def firstIsDirectiveM : List ModuleItem → Bool
  | i :: _ => is_no_inline_module_directive i
  | [] => false

/-- `body.first().is_some_and(is_no_inline_directive)`. -/
def firstIsDirectiveS : List Stmt → Bool
  | s :: _ => is_no_inline_directive s
  | [] => false

/-- The post-children step of visit_mut_expr: return unchanged when the
generator depth is zero; otherwise replace a delegating yield that has an
argument by `yield_inline` of that argument and set the transformed flag; any
other shape (including an argument-less delegating yield) is returned
unchanged. -/
def rewriteStep (p : InlineTransformVisitor × Expr) :
    InlineTransformVisitor × Expr :=
  if p.1.generator_depth == 0 then p
  else
    match p.2 with
    | Expr.yieldE true (OptExpr.some a) =>
        ({ p.1 with transformed := true }, yield_inline a)
    | e => (p.1, e)

mutual

/-- visit_mut_expr: visit all children first, then apply the rewrite step. -/
def visitExpr (st : InlineTransformVisitor) : Expr → InlineTransformVisitor × Expr
  | Expr.lit v => rewriteStep (st, Expr.lit v)
  | Expr.ident n => rewriteStep (st, Expr.ident n)
  | Expr.yieldE d a =>
      let p := visitOptExpr st a
      rewriteStep (p.1, Expr.yieldE d p.2)
  | Expr.call c a t =>
      let p := visitExpr st c
      let q := visitArgs p.1 a
      rewriteStep (q.1, Expr.call p.2 q.2 t)
  | Expr.paren e =>
      let p := visitExpr st e
      rewriteStep (p.1, Expr.paren p.2)
  | Expr.fnExpr f =>
      let p := visitFunction st f
      rewriteStep (p.1, Expr.fnExpr p.2)

/-- Child visit of an optional expression. -/
def visitOptExpr (st : InlineTransformVisitor) :
    OptExpr → InlineTransformVisitor × OptExpr
  | OptExpr.none => (st, OptExpr.none)
  | OptExpr.some e =>
      let p := visitExpr st e
      (p.1, OptExpr.some p.2)

/-- Child visit of a call-argument list. -/
def visitArgs (st : InlineTransformVisitor) :
    Args → InlineTransformVisitor × Args
  | Args.nil => (st, Args.nil)
  | Args.cons sp e rest =>
      let p := visitExpr st e
      let q := visitArgs p.1 rest
      (q.1, Args.cons sp p.2 q.2)

/-- visit_mut_function: for an annotated generator, visit children without
touching the depth; for a plain generator, increment the depth, visit the
children, then decrement unconditionally; for a non-generator, visit the
children with no state change. -/
def visitFunction (st : InlineTransformVisitor) :
    Function → InlineTransformVisitor × Function
  | Function.mk sp gen body =>
      if gen then
        if has_noinline st sp then
          let p := visitStmts st body
          (p.1, Function.mk sp gen p.2)
        else
          let st1 := { st with generator_depth := st.generator_depth + 1 }
          let p := visitStmts st1 body
          ({ p.1 with generator_depth := p.1.generator_depth - 1 },
            Function.mk sp gen p.2)
      else
        let p := visitStmts st body
        (p.1, Function.mk sp gen p.2)

/-- Default (non-overridden) statement visit: visit the children. -/
def visitStmt (st : InlineTransformVisitor) :
    Stmt → InlineTransformVisitor × Stmt
  | Stmt.exprStmt e =>
      let p := visitExpr st e
      (p.1, Stmt.exprStmt p.2)
  | Stmt.varDecl n a =>
      let p := visitOptExpr st a
      (p.1, Stmt.varDecl n p.2)
  | Stmt.ret a =>
      let p := visitOptExpr st a
      (p.1, Stmt.ret p.2)
  | Stmt.fnDecl n f =>
      let p := visitFunction st f
      (p.1, Stmt.fnDecl n p.2)

/-- Child visit of a statement list. -/
def visitStmts (st : InlineTransformVisitor) :
    StmtList → InlineTransformVisitor × StmtList
  | StmtList.nil => (st, StmtList.nil)
  | StmtList.cons s rest =>
      let p := visitStmt st s
      let q := visitStmts p.1 rest
      (q.1, StmtList.cons p.2 q.2)

end

/-- Child visit of one module item.  Statement items go through the statement
visit; an import declaration has no expression or function children that any
overridden method touches, so it is returned unchanged. -/
def visitModuleItem (st : InlineTransformVisitor) :
    ModuleItem → InlineTransformVisitor × ModuleItem
  | ModuleItem.stmtItem s =>
      let p := visitStmt st s
      (p.1, ModuleItem.stmtItem p.2)
  | ModuleItem.importItem d => (st, ModuleItem.importItem d)

/-- Child visit of the module item list. -/
def visitModuleItems (st : InlineTransformVisitor) :
    List ModuleItem → InlineTransformVisitor × List ModuleItem
  | [] => (st, [])
  | i :: rest =>
      let p := visitModuleItem st i
      let q := visitModuleItems p.1 rest
      (q.1, p.2 :: q.2)

/-- visit_mut_module: strip the file-level directive and skip, or visit all
children and then prepend the import when the transformed flag is set. -/
def visitModule (st : InlineTransformVisitor) (m : Module) :
    InlineTransformVisitor × Module :=
  if firstIsDirectiveM m.body then
    ({ st with skip_file := true }, { body := m.body.tail })
  else
    if (visitModuleItems st m.body).1.transformed then
      ((visitModuleItems st m.body).1,
        { body := inline_import :: (visitModuleItems st m.body).2 })
    else ((visitModuleItems st m.body).1, { body := (visitModuleItems st m.body).2 })

/-- Child visit of the script statement list. -/
def visitScriptStmts (st : InlineTransformVisitor) :
    List Stmt → InlineTransformVisitor × List Stmt
  | [] => (st, [])
  | s :: rest =>
      let p := visitStmt st s
      let q := visitScriptStmts p.1 rest
      (q.1, p.2 :: q.2)

/-- visit_mut_script: strip the file-level directive and skip, or visit all
children.  No import is ever inserted here. -/
def visitScript (st : InlineTransformVisitor) (s : Script) :
    InlineTransformVisitor × Script :=
  if firstIsDirectiveS s.body then
    ({ st with skip_file := true }, { body := s.body.tail })
  else
    ((visitScriptStmts st s.body).1, { body := (visitScriptStmts st s.body).2 })

/-- Program visit: dispatch on the program form. -/
def visitProgram (st : InlineTransformVisitor) :
    Program → InlineTransformVisitor × Program
  | Program.mod m =>
      let p := visitModule st m
      (p.1, Program.mod p.2)
  | Program.script s =>
      let p := visitScript st s
      (p.1, Program.script p.2)

/-- process_transform: the plugin entry point.  A fresh visitor is created for
every invocation; the metadata's comment handle, when present, is attached via
with_comments; then the program is visited. -/
def process_transform (cm : Option Comments) (p : Program) : Program :=
  let v :=
    match cm with
    | Option.some c => with_comments InlineTransformVisitor.new c
    | Option.none => InlineTransformVisitor.new
  (visitProgram v p).2

/-- Whether a module item is structurally the injected inline import. -/
def isInlineImport : ModuleItem → Bool
  | ModuleItem.importItem d =>
      match d.specifiers with
      | [ImportSpecifier.named l imp ty] =>
          l == INLINE_BINDING &&
          (match imp with
           | Option.some n => n == "inline"
           | Option.none => false) &&
          !ty && d.src == INLINE_MODULE && !d.type_only
      | _ => false
  | ModuleItem.stmtItem _ => false

/-- Whether a program unit contains the injected inline import among its
top-level items.  A script-form unit holds only statements — the swc Script
body is `Vec<Stmt>` and an import declaration is not a statement — so it can
never contain an import declaration. -/
def programHasInlineImport : Program → Bool
  | Program.mod m => m.body.any isInlineImport
  | Program.script _ => false

/-- The child visit of an expression node in isolation
(`expr.visit_mut_children_with(self)`), as a non-recursive wrapper over the
visitor: `visitExpr` is exactly this followed by `rewriteStep`. -/
def visitExprChildren (st : InlineTransformVisitor) :
    Expr → InlineTransformVisitor × Expr
  | Expr.lit v => (st, Expr.lit v)
  | Expr.ident n => (st, Expr.ident n)
  | Expr.yieldE d a =>
      let p := visitOptExpr st a
      (p.1, Expr.yieldE d p.2)
  | Expr.call c a t =>
      let p := visitExpr st c
      let q := visitArgs p.1 a
      (q.1, Expr.call p.2 q.2 t)
  | Expr.paren e =>
      let p := visitExpr st e
      (p.1, Expr.paren p.2)
  | Expr.fnExpr f =>
      let p := visitFunction st f
      (p.1, Expr.fnExpr p.2)

/- Cleanliness: an AST fragment contains no delegating yield that the visitor,
run at a given generator depth and with a given comment handle, would rewrite.
The depth argument tracks the visitor's depth bookkeeping: an annotated
generator keeps the ambient depth, a plain generator increments it. -/
mutual

/-- No rewritable delegating yield in an expression at depth `d`. -/
def cleanExpr (cm : Option Comments) (d : Nat) : Expr → Bool
  | Expr.lit _ => true
  | Expr.ident _ => true
  | Expr.yieldE true (OptExpr.some a) => (d == 0) && cleanExpr cm d a
  | Expr.yieldE true OptExpr.none => true
  | Expr.yieldE false a => cleanOpt cm d a
  | Expr.call c a _ => cleanExpr cm d c && cleanArgs cm d a
  | Expr.paren e => cleanExpr cm d e
  | Expr.fnExpr f => cleanFunction cm d f

/-- No rewritable delegating yield in an optional expression. -/
def cleanOpt (cm : Option Comments) (d : Nat) : OptExpr → Bool
  | OptExpr.none => true
  | OptExpr.some e => cleanExpr cm d e

/-- No rewritable delegating yield in an argument list. -/
def cleanArgs (cm : Option Comments) (d : Nat) : Args → Bool
  | Args.nil => true
  | Args.cons _ e rest => cleanExpr cm d e && cleanArgs cm d rest

/-- No rewritable delegating yield in a function: a plain generator body is
checked at depth `d + 1`, an annotated generator body and a non-generator body
at depth `d`. -/
def cleanFunction (cm : Option Comments) (d : Nat) : Function → Bool
  | Function.mk sp gen body =>
      if gen then
        if hasNoinlineCm cm sp then cleanStmts cm d body
        else cleanStmts cm (d + 1) body
      else cleanStmts cm d body

/-- No rewritable delegating yield in a statement. -/
def cleanStmt (cm : Option Comments) (d : Nat) : Stmt → Bool
  | Stmt.exprStmt e => cleanExpr cm d e
  | Stmt.varDecl _ a => cleanOpt cm d a
  | Stmt.ret a => cleanOpt cm d a
  | Stmt.fnDecl _ f => cleanFunction cm d f

/-- No rewritable delegating yield in a statement list. -/
def cleanStmts (cm : Option Comments) (d : Nat) : StmtList → Bool
  | StmtList.nil => true
  | StmtList.cons s rest => cleanStmt cm d s && cleanStmts cm d rest

end

/-- No rewritable delegating yield in a module item. -/
def cleanModuleItem (cm : Option Comments) (d : Nat) : ModuleItem → Bool
  | ModuleItem.stmtItem s => cleanStmt cm d s
  | ModuleItem.importItem _ => true

/-- No rewritable delegating yield in a module item list. -/
def cleanModuleItems (cm : Option Comments) (d : Nat) :
    List ModuleItem → Bool
  | [] => true
  | i :: rest => cleanModuleItem cm d i && cleanModuleItems cm d rest

/-- No rewritable delegating yield in a script statement list. -/
def cleanScriptStmts (cm : Option Comments) (d : Nat) : List Stmt → Bool
  | [] => true
  | s :: rest => cleanStmt cm d s && cleanScriptStmts cm d rest

/-! State-preservation lemmas: every visit leaves the generator depth, the
comment handle and the skip flag exactly as it found them (only the
transformed flag can move). -/

/-- The rewrite step can only touch the transformed flag. -/
theorem rewriteStep_state (p : InlineTransformVisitor × Expr) :
    (rewriteStep p).1.generator_depth = p.1.generator_depth ∧
    (rewriteStep p).1.comments = p.1.comments ∧
    (rewriteStep p).1.skip_file = p.1.skip_file := by
  unfold rewriteStep
  split
  · exact ⟨rfl, rfl, rfl⟩
  · split <;> exact ⟨rfl, rfl, rfl⟩

mutual

/-- visit_mut_expr preserves depth, comments and skip flag. -/
theorem visitExpr_state (st : InlineTransformVisitor) (e : Expr) :
    (visitExpr st e).1.generator_depth = st.generator_depth ∧
    (visitExpr st e).1.comments = st.comments ∧
    (visitExpr st e).1.skip_file = st.skip_file := by
  cases e with
  | lit v => exact rewriteStep_state _
  | ident n => exact rewriteStep_state _
  | yieldE d a =>
      have h1 := visitOptExpr_state st a
      simp only [visitExpr]
      refine ⟨?_, ?_, ?_⟩
      · rw [(rewriteStep_state _).1, h1.1]
      · rw [(rewriteStep_state _).2.1, h1.2.1]
      · rw [(rewriteStep_state _).2.2, h1.2.2]
  | call c a t =>
      have h1 := visitExpr_state st c
      have h2 := visitArgs_state (visitExpr st c).1 a
      simp only [visitExpr]
      refine ⟨?_, ?_, ?_⟩
      · rw [(rewriteStep_state _).1, h2.1, h1.1]
      · rw [(rewriteStep_state _).2.1, h2.2.1, h1.2.1]
      · rw [(rewriteStep_state _).2.2, h2.2.2, h1.2.2]
  | paren e0 =>
      have h1 := visitExpr_state st e0
      simp only [visitExpr]
      refine ⟨?_, ?_, ?_⟩
      · rw [(rewriteStep_state _).1, h1.1]
      · rw [(rewriteStep_state _).2.1, h1.2.1]
      · rw [(rewriteStep_state _).2.2, h1.2.2]
  | fnExpr f =>
      have h1 := visitFunction_state st f
      simp only [visitExpr]
      refine ⟨?_, ?_, ?_⟩
      · rw [(rewriteStep_state _).1, h1.1]
      · rw [(rewriteStep_state _).2.1, h1.2.1]
      · rw [(rewriteStep_state _).2.2, h1.2.2]

/-- The optional-expression child visit preserves depth, comments and skip. -/
theorem visitOptExpr_state (st : InlineTransformVisitor) (a : OptExpr) :
    (visitOptExpr st a).1.generator_depth = st.generator_depth ∧
    (visitOptExpr st a).1.comments = st.comments ∧
    (visitOptExpr st a).1.skip_file = st.skip_file := by
  cases a with
  | none => exact ⟨rfl, rfl, rfl⟩
  | some e => exact visitExpr_state st e

/-- The argument-list child visit preserves depth, comments and skip. -/
theorem visitArgs_state (st : InlineTransformVisitor) (a : Args) :
    (visitArgs st a).1.generator_depth = st.generator_depth ∧
    (visitArgs st a).1.comments = st.comments ∧
    (visitArgs st a).1.skip_file = st.skip_file := by
  cases a with
  | nil => exact ⟨rfl, rfl, rfl⟩
  | cons sp e rest =>
      have h1 := visitExpr_state st e
      have h2 := visitArgs_state (visitExpr st e).1 rest
      simp only [visitArgs]
      exact ⟨h2.1.trans h1.1, h2.2.1.trans h1.2.1, h2.2.2.trans h1.2.2⟩

/-- visit_mut_function restores the depth it entered with: each increment is
matched by the unconditional decrement; comments and skip are untouched. -/
theorem visitFunction_state (st : InlineTransformVisitor) (f : Function) :
    (visitFunction st f).1.generator_depth = st.generator_depth ∧
    (visitFunction st f).1.comments = st.comments ∧
    (visitFunction st f).1.skip_file = st.skip_file := by
  cases f with
  | mk sp gen body =>
      cases gen with
      | false =>
          have h := visitStmts_state st body
          simpa [visitFunction] using h
      | true =>
          by_cases ha : has_noinline st sp = true
          · have h := visitStmts_state st body
            simpa [visitFunction, ha] using h
          · have h := visitStmts_state
              { st with generator_depth := st.generator_depth + 1 } body
            simp only [Bool.not_eq_true] at ha
            simp [visitFunction, ha, h.1, h.2.1, h.2.2]

/-- The statement visit preserves depth, comments and skip. -/
theorem visitStmt_state (st : InlineTransformVisitor) (s : Stmt) :
    (visitStmt st s).1.generator_depth = st.generator_depth ∧
    (visitStmt st s).1.comments = st.comments ∧
    (visitStmt st s).1.skip_file = st.skip_file := by
  cases s with
  | exprStmt e => exact visitExpr_state st e
  | varDecl n a => exact visitOptExpr_state st a
  | ret a => exact visitOptExpr_state st a
  | fnDecl n f => exact visitFunction_state st f

/-- The statement-list visit preserves depth, comments and skip. -/
theorem visitStmts_state (st : InlineTransformVisitor) (l : StmtList) :
    (visitStmts st l).1.generator_depth = st.generator_depth ∧
    (visitStmts st l).1.comments = st.comments ∧
    (visitStmts st l).1.skip_file = st.skip_file := by
  cases l with
  | nil => exact ⟨rfl, rfl, rfl⟩
  | cons s rest =>
      have h1 := visitStmt_state st s
      have h2 := visitStmts_state (visitStmt st s).1 rest
      simp only [visitStmts]
      exact ⟨h2.1.trans h1.1, h2.2.1.trans h1.2.1, h2.2.2.trans h1.2.2⟩

end

/-- The module-item visit preserves depth, comments and skip. -/
theorem visitModuleItem_state (st : InlineTransformVisitor) (i : ModuleItem) :
    (visitModuleItem st i).1.generator_depth = st.generator_depth ∧
    (visitModuleItem st i).1.comments = st.comments ∧
    (visitModuleItem st i).1.skip_file = st.skip_file := by
  cases i with
  | stmtItem s => exact visitStmt_state st s
  | importItem d => exact ⟨rfl, rfl, rfl⟩

/-- The module-item-list visit preserves depth, comments and skip. -/
theorem visitModuleItems_state (st : InlineTransformVisitor)
    (l : List ModuleItem) :
    (visitModuleItems st l).1.generator_depth = st.generator_depth ∧
    (visitModuleItems st l).1.comments = st.comments ∧
    (visitModuleItems st l).1.skip_file = st.skip_file := by
  induction l generalizing st with
  | nil => exact ⟨rfl, rfl, rfl⟩
  | cons i rest ih =>
      have h1 := visitModuleItem_state st i
      have h2 := ih (visitModuleItem st i).1
      simp only [visitModuleItems]
      exact ⟨h2.1.trans h1.1, h2.2.1.trans h1.2.1, h2.2.2.trans h1.2.2⟩

/-- The script statement-list visit preserves depth, comments and skip. -/
theorem visitScriptStmts_state (st : InlineTransformVisitor) (l : List Stmt) :
    (visitScriptStmts st l).1.generator_depth = st.generator_depth ∧
    (visitScriptStmts st l).1.comments = st.comments ∧
    (visitScriptStmts st l).1.skip_file = st.skip_file := by
  induction l generalizing st with
  | nil => exact ⟨rfl, rfl, rfl⟩
  | cons s rest ih =>
      have h1 := visitStmt_state st s
      have h2 := ih (visitStmt st s).1
      simp only [visitScriptStmts]
      exact ⟨h2.1.trans h1.1, h2.2.1.trans h1.2.1, h2.2.2.trans h1.2.2⟩

/-- The module visit preserves the generator depth and the comments. -/
theorem visitModule_state (st : InlineTransformVisitor) (m : Module) :
    (visitModule st m).1.generator_depth = st.generator_depth ∧
    (visitModule st m).1.comments = st.comments := by
  have h := visitModuleItems_state st m.body
  unfold visitModule
  split
  · exact ⟨rfl, rfl⟩
  · split
    · exact ⟨h.1, h.2.1⟩
    · exact ⟨h.1, h.2.1⟩

/-- The script visit preserves the generator depth and the comments. -/
theorem visitScript_state (st : InlineTransformVisitor) (s : Script) :
    (visitScript st s).1.generator_depth = st.generator_depth ∧
    (visitScript st s).1.comments = st.comments := by
  unfold visitScript
  split
  · exact ⟨rfl, rfl⟩
  · exact ⟨(visitScriptStmts_state st s.body).1,
      (visitScriptStmts_state st s.body).2.1⟩

/-- The program visit preserves the generator depth and the comments. -/
theorem visitProgram_state (st : InlineTransformVisitor) (p : Program) :
    (visitProgram st p).1.generator_depth = st.generator_depth ∧
    (visitProgram st p).1.comments = st.comments := by
  cases p with
  | mod m => exact visitModule_state st m
  | script s => exact visitScript_state st s

/-! Evaluation shapes of the rewrite step. -/

/-- The rewrite step is the identity at generator depth zero. -/
theorem rewriteStep_zero (p : InlineTransformVisitor × Expr)
    (h : p.1.generator_depth = 0) : rewriteStep p = p := by
  simp [rewriteStep, h]

/-- The rewrite step is the identity on anything that is not a delegating
yield with an argument. -/
theorem rewriteStep_skip (p : InlineTransformVisitor × Expr)
    (h : ∀ a, p.2 ≠ Expr.yieldE true (OptExpr.some a)) : rewriteStep p = p := by
  unfold rewriteStep
  split
  · rfl
  · split
    · exact absurd (by assumption) (h _)
    · rfl

/-- At positive depth the rewrite step replaces a delegating yield that has an
argument, and sets the transformed flag. -/
theorem rewriteStep_fire (p : InlineTransformVisitor × Expr) (a : Expr)
    (h2 : p.2 = Expr.yieldE true (OptExpr.some a))
    (h : p.1.generator_depth ≠ 0) :
    rewriteStep p = ({ p.1 with transformed := true }, yield_inline a) := by
  unfold rewriteStep
  split
  · exact absurd (by assumption) (by simpa using h)
  · rw [h2]

/-! The output of the visitor is clean: it contains no delegating yield that a
second visit at the same depth and comments would rewrite. -/

mutual

/-- The expression produced by visit_mut_expr is clean. -/
theorem visitExpr_clean (st : InlineTransformVisitor) (e : Expr) :
    cleanExpr st.comments st.generator_depth (visitExpr st e).2 = true := by
  cases e with
  | lit v =>
      rw [show visitExpr st (Expr.lit v) = rewriteStep (st, Expr.lit v) from rfl,
        rewriteStep_skip _ (by intro a h; cases h)]
      rfl
  | ident n =>
      rw [show visitExpr st (Expr.ident n) = rewriteStep (st, Expr.ident n) from rfl,
        rewriteStep_skip _ (by intro a h; cases h)]
      rfl
  | yieldE d a =>
      have hst := visitOptExpr_state st a
      have hcl := visitOptExpr_clean st a
      simp only [visitExpr]
      cases d with
      | false =>
          rw [rewriteStep_skip _ (by intro x h; cases h)]
          simpa [cleanExpr] using hcl
      | true =>
          cases a with
          | none =>
              rw [show visitOptExpr st OptExpr.none = (st, OptExpr.none) from rfl]
              rw [rewriteStep_skip _ (by intro x h; cases h)]
              rfl
          | some a0 =>
              have ha0 := visitExpr_clean st a0
              rw [show visitOptExpr st (OptExpr.some a0) =
                ((visitExpr st a0).1, OptExpr.some (visitExpr st a0).2) from rfl]
              by_cases hz : st.generator_depth = 0
              · rw [rewriteStep_zero _ (by
                  simpa [(visitExpr_state st a0).1] using hz)]
                rw [hz] at ha0 ⊢
                simp [cleanExpr, ha0]
              · rw [rewriteStep_fire _ (visitExpr st a0).2 rfl (by
                  simpa [(visitExpr_state st a0).1] using hz)]
                simp [yield_inline, inline_call, inline_ident, cleanExpr,
                  cleanOpt, cleanArgs, ha0]
  | call c ar t =>
      have h1 := visitExpr_clean st c
      have h2 := visitArgs_clean (visitExpr st c).1 ar
      have hs := visitExpr_state st c
      simp only [visitExpr]
      rw [rewriteStep_skip _ (by intro x h; cases h)]
      simp only [cleanExpr, Bool.and_eq_true]
      refine ⟨h1, ?_⟩
      rw [hs.2.1, hs.1] at h2
      exact h2
  | paren e0 =>
      have h1 := visitExpr_clean st e0
      simp only [visitExpr]
      rw [rewriteStep_skip _ (by intro x h; cases h)]
      simpa [cleanExpr] using h1
  | fnExpr f =>
      have h1 := visitFunction_clean st f
      simp only [visitExpr]
      rw [rewriteStep_skip _ (by intro x h; cases h)]
      simpa [cleanExpr] using h1

/-- The optional expression produced by the child visit is clean. -/
theorem visitOptExpr_clean (st : InlineTransformVisitor) (a : OptExpr) :
    cleanOpt st.comments st.generator_depth (visitOptExpr st a).2 = true := by
  cases a with
  | none => rfl
  | some e =>
      have h := visitExpr_clean st e
      simpa [visitOptExpr, cleanOpt] using h

/-- The argument list produced by the child visit is clean. -/
theorem visitArgs_clean (st : InlineTransformVisitor) (a : Args) :
    cleanArgs st.comments st.generator_depth (visitArgs st a).2 = true := by
  cases a with
  | nil => rfl
  | cons sp e rest =>
      have h1 := visitExpr_clean st e
      have h2 := visitArgs_clean (visitExpr st e).1 rest
      have hs := visitExpr_state st e
      simp only [visitArgs, cleanArgs, Bool.and_eq_true]
      refine ⟨h1, ?_⟩
      rw [hs.2.1, hs.1] at h2
      exact h2

/-- The function produced by visit_mut_function is clean. -/
theorem visitFunction_clean (st : InlineTransformVisitor) (f : Function) :
    cleanFunction st.comments st.generator_depth (visitFunction st f).2 = true := by
  cases f with
  | mk sp gen body =>
      cases gen with
      | false =>
          have h := visitStmts_clean st body
          simpa [visitFunction, cleanFunction] using h
      | true =>
          by_cases ha : has_noinline st sp = true
          · have h := visitStmts_clean st body
            have ha' : hasNoinlineCm st.comments sp = true := ha
            simp [visitFunction, ha, cleanFunction, ha']
            exact h
          · have h := visitStmts_clean
              { st with generator_depth := st.generator_depth + 1 } body
            have ha' : hasNoinlineCm st.comments sp = false := by
              simpa [Bool.not_eq_true, has_noinline] using ha
            simp only [Bool.not_eq_true] at ha
            simp [visitFunction, ha, cleanFunction, ha']
            exact h

/-- The statement produced by the child visit is clean. -/
theorem visitStmt_clean (st : InlineTransformVisitor) (s : Stmt) :
    cleanStmt st.comments st.generator_depth (visitStmt st s).2 = true := by
  cases s with
  | exprStmt e =>
      have h := visitExpr_clean st e
      simpa [visitStmt, cleanStmt] using h
  | varDecl n a =>
      have h := visitOptExpr_clean st a
      simpa [visitStmt, cleanStmt] using h
  | ret a =>
      have h := visitOptExpr_clean st a
      simpa [visitStmt, cleanStmt] using h
  | fnDecl n f =>
      have h := visitFunction_clean st f
      simpa [visitStmt, cleanStmt] using h

/-- The statement list produced by the child visit is clean. -/
theorem visitStmts_clean (st : InlineTransformVisitor) (l : StmtList) :
    cleanStmts st.comments st.generator_depth (visitStmts st l).2 = true := by
  cases l with
  | nil => rfl
  | cons s rest =>
      have h1 := visitStmt_clean st s
      have h2 := visitStmts_clean (visitStmt st s).1 rest
      have hs := visitStmt_state st s
      simp only [visitStmts, cleanStmts, Bool.and_eq_true]
      refine ⟨h1, ?_⟩
      rw [hs.2.1, hs.1] at h2
      exact h2

end

/-! On clean input the visitor is the identity: nothing is rewritten and the
whole state (transformed flag included) is returned untouched. -/

mutual

/-- visit_mut_expr is the identity on a clean expression. -/
theorem visitExpr_id (st : InlineTransformVisitor) (e : Expr)
    (h : cleanExpr st.comments st.generator_depth e = true) :
    visitExpr st e = (st, e) := by
  cases e with
  | lit v =>
      exact rewriteStep_skip _ (by intro a hx; cases hx)
  | ident n =>
      exact rewriteStep_skip _ (by intro a hx; cases hx)
  | yieldE d a =>
      simp only [visitExpr]
      cases d with
      | false =>
          have ha : cleanOpt st.comments st.generator_depth a = true := by
            simpa [cleanExpr] using h
          rw [visitOptExpr_id st a ha]
          exact rewriteStep_skip _ (by intro x hx; cases hx)
      | true =>
          cases a with
          | none =>
              rw [show visitOptExpr st OptExpr.none = (st, OptExpr.none) from rfl]
              exact rewriteStep_skip _ (by intro x hx; cases hx)
          | some a0 =>
              have h' : (st.generator_depth == 0) = true ∧
                  cleanExpr st.comments st.generator_depth a0 = true := by
                simpa [cleanExpr, Bool.and_eq_true] using h
              have hz : st.generator_depth = 0 := by
                simpa using h'.1
              rw [visitOptExpr_id st (OptExpr.some a0) (by
                simpa [cleanOpt] using h'.2)]
              exact rewriteStep_zero _ hz
  | call c ar t =>
      have h' : cleanExpr st.comments st.generator_depth c = true ∧
          cleanArgs st.comments st.generator_depth ar = true := by
        simpa [cleanExpr, Bool.and_eq_true] using h
      simp only [visitExpr]
      rw [visitExpr_id st c h'.1]
      rw [visitArgs_id st ar h'.2]
      exact rewriteStep_skip _ (by intro x hx; cases hx)
  | paren e0 =>
      have h' : cleanExpr st.comments st.generator_depth e0 = true := by
        simpa [cleanExpr] using h
      simp only [visitExpr]
      rw [visitExpr_id st e0 h']
      exact rewriteStep_skip _ (by intro x hx; cases hx)
  | fnExpr f =>
      have h' : cleanFunction st.comments st.generator_depth f = true := by
        simpa [cleanExpr] using h
      simp only [visitExpr]
      rw [visitFunction_id st f h']
      exact rewriteStep_skip _ (by intro x hx; cases hx)

/-- The child visit is the identity on a clean optional expression. -/
theorem visitOptExpr_id (st : InlineTransformVisitor) (a : OptExpr)
    (h : cleanOpt st.comments st.generator_depth a = true) :
    visitOptExpr st a = (st, a) := by
  cases a with
  | none => rfl
  | some e =>
      have h' : cleanExpr st.comments st.generator_depth e = true := by
        simpa [cleanOpt] using h
      simp only [visitOptExpr]
      rw [visitExpr_id st e h']

/-- The child visit is the identity on a clean argument list. -/
theorem visitArgs_id (st : InlineTransformVisitor) (a : Args)
    (h : cleanArgs st.comments st.generator_depth a = true) :
    visitArgs st a = (st, a) := by
  cases a with
  | nil => rfl
  | cons sp e rest =>
      have h' : cleanExpr st.comments st.generator_depth e = true ∧
          cleanArgs st.comments st.generator_depth rest = true := by
        simpa [cleanArgs, Bool.and_eq_true] using h
      simp only [visitArgs]
      rw [visitExpr_id st e h'.1, visitArgs_id st rest h'.2]

/-- visit_mut_function is the identity on a clean function. -/
theorem visitFunction_id (st : InlineTransformVisitor) (f : Function)
    (h : cleanFunction st.comments st.generator_depth f = true) :
    visitFunction st f = (st, f) := by
  cases f with
  | mk sp gen body =>
      cases gen with
      | false =>
          have h' : cleanStmts st.comments st.generator_depth body = true := by
            simpa [cleanFunction] using h
          simp only [visitFunction]
          rw [visitStmts_id st body h']
          simp
      | true =>
          by_cases ha : has_noinline st sp = true
          · have h' : cleanStmts st.comments st.generator_depth body = true := by
              have ha' : hasNoinlineCm st.comments sp = true := ha
              simpa [cleanFunction, ha'] using h
            simp only [visitFunction, ha, if_true]
            rw [visitStmts_id st body h']
          · have ha' : hasNoinlineCm st.comments sp = false := by
              simpa [Bool.not_eq_true, has_noinline] using ha
            have h' : cleanStmts st.comments (st.generator_depth + 1) body = true := by
              simpa [cleanFunction, ha'] using h
            have hid := visitStmts_id
              { st with generator_depth := st.generator_depth + 1 } body (by
                simpa using h')
            simp only [Bool.not_eq_true] at ha
            simp only [visitFunction, ha, if_true, Bool.false_eq_true, if_false]
            rw [hid]
            simp

/-- The child visit is the identity on a clean statement. -/
theorem visitStmt_id (st : InlineTransformVisitor) (s : Stmt)
    (h : cleanStmt st.comments st.generator_depth s = true) :
    visitStmt st s = (st, s) := by
  cases s with
  | exprStmt e =>
      simp only [visitStmt]
      rw [visitExpr_id st e (by simpa [cleanStmt] using h)]
  | varDecl n a =>
      simp only [visitStmt]
      rw [visitOptExpr_id st a (by simpa [cleanStmt] using h)]
  | ret a =>
      simp only [visitStmt]
      rw [visitOptExpr_id st a (by simpa [cleanStmt] using h)]
  | fnDecl n f =>
      simp only [visitStmt]
      rw [visitFunction_id st f (by simpa [cleanStmt] using h)]

/-- The child visit is the identity on a clean statement list. -/
theorem visitStmts_id (st : InlineTransformVisitor) (l : StmtList)
    (h : cleanStmts st.comments st.generator_depth l = true) :
    visitStmts st l = (st, l) := by
  cases l with
  | nil => rfl
  | cons s rest =>
      have h' : cleanStmt st.comments st.generator_depth s = true ∧
          cleanStmts st.comments st.generator_depth rest = true := by
        simpa [cleanStmts, Bool.and_eq_true] using h
      simp only [visitStmts]
      rw [visitStmt_id st s h'.1, visitStmts_id st rest h'.2]

end

/-! Directive-shape preservation: visiting never creates and never destroys a
`"no inline"` directive statement. -/

/-- The rewrite step preserves whether the node is a directive literal. -/
theorem rewriteStep_dir (p : InlineTransformVisitor × Expr) :
    is_no_inline_directive (Stmt.exprStmt (rewriteStep p).2) =
    is_no_inline_directive (Stmt.exprStmt p.2) := by
  by_cases hz : p.1.generator_depth = 0
  · rw [rewriteStep_zero p hz]
  · rcases p with ⟨st0, e0⟩
    cases e0 with
    | yieldE d a =>
        cases d with
        | false => rw [rewriteStep_skip _ (by intro x hx; cases hx)]
        | true =>
            cases a with
            | none => rw [rewriteStep_skip _ (by intro x hx; cases hx)]
            | some a0 =>
                rw [rewriteStep_fire _ a0 rfl hz]
                rfl
    | lit v => rw [rewriteStep_skip _ (by intro x hx; cases hx)]
    | ident n => rw [rewriteStep_skip _ (by intro x hx; cases hx)]
    | call c ar t => rw [rewriteStep_skip _ (by intro x hx; cases hx)]
    | paren e1 => rw [rewriteStep_skip _ (by intro x hx; cases hx)]
    | fnExpr f => rw [rewriteStep_skip _ (by intro x hx; cases hx)]

/-- The expression visit preserves directive shape. -/
theorem visitExpr_dir (st : InlineTransformVisitor) (e : Expr) :
    is_no_inline_directive (Stmt.exprStmt (visitExpr st e).2) =
    is_no_inline_directive (Stmt.exprStmt e) := by
  cases e with
  | lit v => simp only [visitExpr]; rw [rewriteStep_dir]
  | ident n => simp only [visitExpr]; rw [rewriteStep_dir]
  | yieldE d a => simp only [visitExpr]; rw [rewriteStep_dir]; rfl
  | call c ar t => simp only [visitExpr]; rw [rewriteStep_dir]; rfl
  | paren e0 => simp only [visitExpr]; rw [rewriteStep_dir]; rfl
  | fnExpr f => simp only [visitExpr]; rw [rewriteStep_dir]; rfl

/-- The statement visit preserves directive shape. -/
theorem visitStmt_dir (st : InlineTransformVisitor) (s : Stmt) :
    is_no_inline_directive (visitStmt st s).2 = is_no_inline_directive s := by
  cases s with
  | exprStmt e => exact visitExpr_dir st e
  | varDecl n a => rfl
  | ret a => rfl
  | fnDecl n f => rfl

/-- The module-item visit preserves directive shape. -/
theorem visitModuleItem_dir (st : InlineTransformVisitor) (i : ModuleItem) :
    is_no_inline_module_directive (visitModuleItem st i).2 =
    is_no_inline_module_directive i := by
  cases i with
  | stmtItem s => exact visitStmt_dir st s
  | importItem d => rfl

/-- The module-items visit preserves whether the first item is a directive. -/
theorem visitModuleItems_firstDir (st : InlineTransformVisitor)
    (l : List ModuleItem) :
    firstIsDirectiveM (visitModuleItems st l).2 = firstIsDirectiveM l := by
  cases l with
  | nil => rfl
  | cons i rest =>
      simp only [visitModuleItems, firstIsDirectiveM]
      exact visitModuleItem_dir st i

/-- The script-statement visit preserves whether the first item is a
directive. -/
theorem visitScriptStmts_firstDir (st : InlineTransformVisitor)
    (l : List Stmt) :
    firstIsDirectiveS (visitScriptStmts st l).2 = firstIsDirectiveS l := by
  cases l with
  | nil => rfl
  | cons s rest =>
      simp only [visitScriptStmts, firstIsDirectiveS]
      exact visitStmt_dir st s

/-! List-level cleanliness and identity. -/

/-- The module item produced by the child visit is clean. -/
theorem visitModuleItem_clean (st : InlineTransformVisitor) (i : ModuleItem) :
    cleanModuleItem st.comments st.generator_depth (visitModuleItem st i).2 = true := by
  cases i with
  | stmtItem s =>
      have h := visitStmt_clean st s
      simpa [visitModuleItem, cleanModuleItem] using h
  | importItem d => rfl

/-- The module item list produced by the child visit is clean. -/
theorem visitModuleItems_clean (st : InlineTransformVisitor)
    (l : List ModuleItem) :
    cleanModuleItems st.comments st.generator_depth (visitModuleItems st l).2 = true := by
  induction l generalizing st with
  | nil => rfl
  | cons i rest ih =>
      have h1 := visitModuleItem_clean st i
      have h2 := ih (visitModuleItem st i).1
      have hs := visitModuleItem_state st i
      simp only [visitModuleItems, cleanModuleItems, Bool.and_eq_true]
      refine ⟨h1, ?_⟩
      rw [hs.2.1, hs.1] at h2
      exact h2

/-- The child visit is the identity on a clean module item. -/
theorem visitModuleItem_id (st : InlineTransformVisitor) (i : ModuleItem)
    (h : cleanModuleItem st.comments st.generator_depth i = true) :
    visitModuleItem st i = (st, i) := by
  cases i with
  | stmtItem s =>
      simp only [visitModuleItem]
      rw [visitStmt_id st s (by simpa [cleanModuleItem] using h)]
  | importItem d => rfl

/-- The child visit is the identity on a clean module item list. -/
theorem visitModuleItems_id (st : InlineTransformVisitor) (l : List ModuleItem)
    (h : cleanModuleItems st.comments st.generator_depth l = true) :
    visitModuleItems st l = (st, l) := by
  induction l generalizing st with
  | nil => rfl
  | cons i rest ih =>
      have h' : cleanModuleItem st.comments st.generator_depth i = true ∧
          cleanModuleItems st.comments st.generator_depth rest = true := by
        simpa [cleanModuleItems, Bool.and_eq_true] using h
      simp only [visitModuleItems]
      rw [visitModuleItem_id st i h'.1, ih st h'.2]

/-- The script statement list produced by the child visit is clean. -/
theorem visitScriptStmts_clean (st : InlineTransformVisitor) (l : List Stmt) :
    cleanScriptStmts st.comments st.generator_depth (visitScriptStmts st l).2 = true := by
  induction l generalizing st with
  | nil => rfl
  | cons s rest ih =>
      have h1 := visitStmt_clean st s
      have h2 := ih (visitStmt st s).1
      have hs := visitStmt_state st s
      simp only [visitScriptStmts, cleanScriptStmts, Bool.and_eq_true]
      refine ⟨h1, ?_⟩
      rw [hs.2.1, hs.1] at h2
      exact h2

/-- The child visit is the identity on a clean script statement list. -/
theorem visitScriptStmts_id (st : InlineTransformVisitor) (l : List Stmt)
    (h : cleanScriptStmts st.comments st.generator_depth l = true) :
    visitScriptStmts st l = (st, l) := by
  induction l generalizing st with
  | nil => rfl
  | cons s rest ih =>
      have h' : cleanStmt st.comments st.generator_depth s = true ∧
          cleanScriptStmts st.comments st.generator_depth rest = true := by
        simpa [cleanScriptStmts, Bool.and_eq_true] using h
      simp only [visitScriptStmts]
      rw [visitStmt_id st s h'.1, ih st h'.2]

/-! State-insensitivity: the tree a visit produces depends on the incoming
state only through the generator depth and the comment handle — not through
the transformed or skip flags. -/

/-- The rewritten node depends only on the depth test and the node. -/
theorem rewriteStep_snd (p q : InlineTransformVisitor × Expr)
    (hd : p.1.generator_depth = q.1.generator_depth) (he : p.2 = q.2) :
    (rewriteStep p).2 = (rewriteStep q).2 := by
  by_cases hz : q.1.generator_depth = 0
  · rw [rewriteStep_zero p (hd.trans hz), rewriteStep_zero q hz]
    exact he
  · cases hq : q.2 with
    | yieldE d a =>
        cases d with
        | false =>
            rw [rewriteStep_skip p (by intro x hx; rw [he, hq] at hx; cases hx),
              rewriteStep_skip q (by intro x hx; rw [hq] at hx; cases hx)]
            exact he
        | true =>
            cases a with
            | none =>
                rw [rewriteStep_skip p (by intro x hx; rw [he, hq] at hx; cases hx),
                  rewriteStep_skip q (by intro x hx; rw [hq] at hx; cases hx)]
                exact he
            | some a0 =>
                rw [rewriteStep_fire p a0 (he.trans hq) (by rw [hd]; exact hz),
                  rewriteStep_fire q a0 hq hz]
    | lit v =>
        rw [rewriteStep_skip p (by intro x hx; rw [he, hq] at hx; cases hx),
          rewriteStep_skip q (by intro x hx; rw [hq] at hx; cases hx)]
        exact he
    | ident n =>
        rw [rewriteStep_skip p (by intro x hx; rw [he, hq] at hx; cases hx),
          rewriteStep_skip q (by intro x hx; rw [hq] at hx; cases hx)]
        exact he
    | call c ar t =>
        rw [rewriteStep_skip p (by intro x hx; rw [he, hq] at hx; cases hx),
          rewriteStep_skip q (by intro x hx; rw [hq] at hx; cases hx)]
        exact he
    | paren e1 =>
        rw [rewriteStep_skip p (by intro x hx; rw [he, hq] at hx; cases hx),
          rewriteStep_skip q (by intro x hx; rw [hq] at hx; cases hx)]
        exact he
    | fnExpr f =>
        rw [rewriteStep_skip p (by intro x hx; rw [he, hq] at hx; cases hx),
          rewriteStep_skip q (by intro x hx; rw [hq] at hx; cases hx)]
        exact he

mutual

/-- visit_mut_expr produces the same tree from any two states that agree on
depth and comments. -/
theorem visitExpr_ext (st st' : InlineTransformVisitor) (e : Expr)
    (hd : st.generator_depth = st'.generator_depth)
    (hc : st.comments = st'.comments) :
    (visitExpr st e).2 = (visitExpr st' e).2 := by
  cases e with
  | lit v =>
      simp only [visitExpr]
      exact rewriteStep_snd _ _ hd rfl
  | ident n =>
      simp only [visitExpr]
      exact rewriteStep_snd _ _ hd rfl
  | yieldE d a =>
      have h1 := visitOptExpr_ext st st' a hd hc
      simp only [visitExpr]
      refine rewriteStep_snd _ _ ?_ ?_
      · rw [(visitOptExpr_state st a).1, (visitOptExpr_state st' a).1]
        exact hd
      · rw [h1]
  | call c ar t =>
      have h1 := visitExpr_ext st st' c hd hc
      have h2 := visitArgs_ext (visitExpr st c).1 (visitExpr st' c).1 ar
        (by rw [(visitExpr_state st c).1, (visitExpr_state st' c).1]; exact hd)
        (by rw [(visitExpr_state st c).2.1, (visitExpr_state st' c).2.1]; exact hc)
      simp only [visitExpr]
      refine rewriteStep_snd _ _ ?_ ?_
      · rw [(visitArgs_state (visitExpr st c).1 ar).1,
          (visitArgs_state (visitExpr st' c).1 ar).1,
          (visitExpr_state st c).1, (visitExpr_state st' c).1]
        exact hd
      · rw [h1, h2]
  | paren e0 =>
      have h1 := visitExpr_ext st st' e0 hd hc
      simp only [visitExpr]
      refine rewriteStep_snd _ _ ?_ ?_
      · rw [(visitExpr_state st e0).1, (visitExpr_state st' e0).1]
        exact hd
      · rw [h1]
  | fnExpr f =>
      have h1 := visitFunction_ext st st' f hd hc
      simp only [visitExpr]
      refine rewriteStep_snd _ _ ?_ ?_
      · rw [(visitFunction_state st f).1, (visitFunction_state st' f).1]
        exact hd
      · rw [h1]

/-- Optional-expression analogue of visitExpr_ext. -/
theorem visitOptExpr_ext (st st' : InlineTransformVisitor) (a : OptExpr)
    (hd : st.generator_depth = st'.generator_depth)
    (hc : st.comments = st'.comments) :
    (visitOptExpr st a).2 = (visitOptExpr st' a).2 := by
  cases a with
  | none => rfl
  | some e =>
      simp only [visitOptExpr]
      rw [visitExpr_ext st st' e hd hc]

/-- Argument-list analogue of visitExpr_ext. -/
theorem visitArgs_ext (st st' : InlineTransformVisitor) (a : Args)
    (hd : st.generator_depth = st'.generator_depth)
    (hc : st.comments = st'.comments) :
    (visitArgs st a).2 = (visitArgs st' a).2 := by
  cases a with
  | nil => rfl
  | cons sp e rest =>
      have h1 := visitExpr_ext st st' e hd hc
      have h2 := visitArgs_ext (visitExpr st e).1 (visitExpr st' e).1 rest
        (by rw [(visitExpr_state st e).1, (visitExpr_state st' e).1]; exact hd)
        (by rw [(visitExpr_state st e).2.1, (visitExpr_state st' e).2.1]; exact hc)
      simp only [visitArgs]
      rw [h1, h2]

/-- Function analogue of visitExpr_ext. -/
theorem visitFunction_ext (st st' : InlineTransformVisitor) (f : Function)
    (hd : st.generator_depth = st'.generator_depth)
    (hc : st.comments = st'.comments) :
    (visitFunction st f).2 = (visitFunction st' f).2 := by
  cases f with
  | mk sp gen body =>
      have hno : has_noinline st sp = has_noinline st' sp := by
        unfold has_noinline
        rw [hc]
      cases gen with
      | false =>
          have h := visitStmts_ext st st' body hd hc
          simp only [visitFunction, Bool.false_eq_true, if_false]
          rw [h]
      | true =>
          by_cases ha : has_noinline st' sp = true
          · have h := visitStmts_ext st st' body hd hc
            simp only [visitFunction, hno, ha, if_true]
            rw [h]
          · have h := visitStmts_ext
              { st with generator_depth := st.generator_depth + 1 }
              { st' with generator_depth := st'.generator_depth + 1 } body
              (by simp [hd]) hc
            simp only [Bool.not_eq_true] at ha
            simp only [visitFunction, hno, ha, Bool.false_eq_true, if_false,
              if_true]
            rw [h]

/-- Statement analogue of visitExpr_ext. -/
theorem visitStmt_ext (st st' : InlineTransformVisitor) (s : Stmt)
    (hd : st.generator_depth = st'.generator_depth)
    (hc : st.comments = st'.comments) :
    (visitStmt st s).2 = (visitStmt st' s).2 := by
  cases s with
  | exprStmt e =>
      simp only [visitStmt]
      rw [visitExpr_ext st st' e hd hc]
  | varDecl n a =>
      simp only [visitStmt]
      rw [visitOptExpr_ext st st' a hd hc]
  | ret a =>
      simp only [visitStmt]
      rw [visitOptExpr_ext st st' a hd hc]
  | fnDecl n f =>
      simp only [visitStmt]
      rw [visitFunction_ext st st' f hd hc]

/-- Statement-list analogue of visitExpr_ext. -/
theorem visitStmts_ext (st st' : InlineTransformVisitor) (l : StmtList)
    (hd : st.generator_depth = st'.generator_depth)
    (hc : st.comments = st'.comments) :
    (visitStmts st l).2 = (visitStmts st' l).2 := by
  cases l with
  | nil => rfl
  | cons s rest =>
      have h1 := visitStmt_ext st st' s hd hc
      have h2 := visitStmts_ext (visitStmt st s).1 (visitStmt st' s).1 rest
        (by rw [(visitStmt_state st s).1, (visitStmt_state st' s).1]; exact hd)
        (by rw [(visitStmt_state st s).2.1, (visitStmt_state st' s).2.1]; exact hc)
      simp only [visitStmts]
      rw [h1, h2]

end

/-! Counting the injected import. -/

/-- The child visit preserves whether an item is the inline import. -/
theorem visitModuleItem_inline (st : InlineTransformVisitor) (i : ModuleItem) :
    isInlineImport (visitModuleItem st i).2 = isInlineImport i := by
  cases i with
  | stmtItem s => rfl
  | importItem d => rfl

/-- The child visit preserves the number of inline-import items. -/
theorem visitModuleItems_countInline (st : InlineTransformVisitor)
    (l : List ModuleItem) :
    List.countP isInlineImport (visitModuleItems st l).2 =
    List.countP isInlineImport l := by
  induction l generalizing st with
  | nil => rfl
  | cons i rest ih =>
      simp only [visitModuleItems, List.countP_cons]
      rw [visitModuleItem_inline, ih]

/-- The equation relating visit_mut_expr to its children visit: visit the
children, then apply the rewrite step. -/
theorem visitExpr_eq_children (st : InlineTransformVisitor) (e : Expr) :
    visitExpr st e = rewriteStep (visitExprChildren st e) := by
  cases e <;> rfl

/-- The children visit of an expression preserves the generator depth. -/
theorem visitExprChildren_depth (st : InlineTransformVisitor) (e : Expr) :
    (visitExprChildren st e).1.generator_depth = st.generator_depth := by
  cases e with
  | lit v => rfl
  | ident n => rfl
  | yieldE d a => exact (visitOptExpr_state st a).1
  | call c ar t =>
      simp only [visitExprChildren]
      rw [(visitArgs_state (visitExpr st c).1 ar).1, (visitExpr_state st c).1]
  | paren e0 => exact (visitExpr_state st e0).1
  | fnExpr f => exact (visitFunction_state st f).1

/-! The claims. -/

/-- C1: every delegating-yield expression with a present argument, visited
while the generator depth is positive, is replaced by a parenthesized
non-delegating yield whose argument is a call to the fixed identifier
`$$inline` with the already-recursively-rewritten original argument as its
single positional, non-spread argument and no type arguments; the transformed
flag is set. -/
theorem c1_delegating_yield_rewrite (st : InlineTransformVisitor) (a : Expr)
    (h : 0 < st.generator_depth) :
    visitExpr st (Expr.yieldE true (OptExpr.some a)) =
      ({ (visitExpr st a).1 with transformed := true },
        Expr.paren (Expr.yieldE false (OptExpr.some
          (Expr.call (Expr.ident "$$inline")
            (Args.cons false (visitExpr st a).2 Args.nil) false)))) := by
  have hz : (visitExpr st a).1.generator_depth ≠ 0 := by
    rw [(visitExpr_state st a).1]
    omega
  simp only [visitExpr]
  exact rewriteStep_fire
    ((visitExpr st a).1, Expr.yieldE true (OptExpr.some (visitExpr st a).2))
    (visitExpr st a).2 rfl hz

/-- C1 witness: the rewrite at depth 1 on `yield* v`. -/
theorem c1_delegating_yield_rewrite_witness :
    0 < ({ generator_depth := 1, transformed := false, skip_file := false,
            comments := Option.none } : InlineTransformVisitor).generator_depth ∧
    visitExpr
      { generator_depth := 1, transformed := false, skip_file := false,
        comments := Option.none }
      (Expr.yieldE true (OptExpr.some (Expr.ident "v"))) =
      ({ generator_depth := 1, transformed := true, skip_file := false,
          comments := Option.none },
        Expr.paren (Expr.yieldE false (OptExpr.some
          (Expr.call (Expr.ident "$$inline")
            (Args.cons false (Expr.ident "v") Args.nil) false)))) :=
  ⟨by decide, c1_delegating_yield_rewrite _ _ (by decide)⟩

/-- C3: a unit whose first item is the exact `"no inline"` directive has that
first item removed, is otherwise returned unchanged (no rewrite anywhere, no
import), for both the module and the script form; and an empty unit is never
skipped. -/
theorem c3_directive_strip :
    (∀ (st : InlineTransformVisitor) (i : ModuleItem) (rest : List ModuleItem),
      is_no_inline_module_directive i = true →
      visitModule st { body := i :: rest } =
        ({ st with skip_file := true }, { body := rest })) ∧
    (∀ (st : InlineTransformVisitor) (s : Stmt) (rest : List Stmt),
      is_no_inline_directive s = true →
      visitScript st { body := s :: rest } =
        ({ st with skip_file := true }, { body := rest })) ∧
    (∀ cm : Option Comments,
      visitModule (mkVisitor cm) { body := [] } =
        (mkVisitor cm, { body := [] }) ∧
      (visitModule (mkVisitor cm) { body := [] }).1.skip_file = false) ∧
    (∀ cm : Option Comments,
      visitScript (mkVisitor cm) { body := [] } =
        (mkVisitor cm, { body := [] })) := by
  refine ⟨?_, ?_, ?_, ?_⟩
  · intro st i rest h
    unfold visitModule
    simp only [firstIsDirectiveM, h, if_true]
    rfl
  · intro st s rest h
    unfold visitScript
    simp only [firstIsDirectiveS, h, if_true]
    rfl
  · intro cm
    exact ⟨rfl, rfl⟩
  · intro cm
    rfl

/-- C3 witness: stripping a concrete directive module. -/
theorem c3_directive_strip_witness :
    is_no_inline_module_directive
      (ModuleItem.stmtItem (Stmt.exprStmt (Expr.lit "no inline"))) = true ∧
    visitModule
      { generator_depth := 0, transformed := false, skip_file := false,
        comments := Option.none }
      { body := [ModuleItem.stmtItem (Stmt.exprStmt (Expr.lit "no inline")),
          ModuleItem.stmtItem (Stmt.ret OptExpr.none)] } =
      ({ generator_depth := 0, transformed := false, skip_file := true,
          comments := Option.none },
        { body := [ModuleItem.stmtItem (Stmt.ret OptExpr.none)] }) :=
  ⟨by decide, c3_directive_strip.1 _ _ _ (by decide)⟩

/-- C6: a non-delegating yield is never replaced (only its children are
visited), and at generator depth zero every expression node is left exactly as
its children visit produced it — no rewrite happens outside a generator
body. -/
theorem c6_frame :
    (∀ (st : InlineTransformVisitor) (a : OptExpr),
      visitExpr st (Expr.yieldE false a) =
        ((visitOptExpr st a).1, Expr.yieldE false (visitOptExpr st a).2)) ∧
    (∀ (st : InlineTransformVisitor) (e : Expr),
      st.generator_depth = 0 →
      visitExpr st e = visitExprChildren st e) := by
  constructor
  · intro st a
    simp only [visitExpr]
    exact rewriteStep_skip _ (by intro x hx; cases hx)
  · intro st e h
    rw [visitExpr_eq_children]
    exact rewriteStep_zero _ (by rw [visitExprChildren_depth]; exact h)

/-- C6 witness: at depth 0 a generator expression node is passed through with
only its children visited. -/
theorem c6_frame_witness :
    ({ generator_depth := 0, transformed := false, skip_file := false,
        comments := Option.none } : InlineTransformVisitor).generator_depth = 0 ∧
    visitExpr
      { generator_depth := 0, transformed := false, skip_file := false,
        comments := Option.none }
      (Expr.fnExpr (Function.mk 0 true (StmtList.cons
        (Stmt.exprStmt (Expr.yieldE true (OptExpr.some (Expr.ident "w"))))
        StmtList.nil))) =
    visitExprChildren
      { generator_depth := 0, transformed := false, skip_file := false,
        comments := Option.none }
      (Expr.fnExpr (Function.mk 0 true (StmtList.cons
        (Stmt.exprStmt (Expr.yieldE true (OptExpr.some (Expr.ident "w"))))
        StmtList.nil))) :=
  ⟨rfl, c6_frame.2 _ _ rfl⟩

/-- C7: the generator depth starts at 0 in a fresh visitor, every function
visit returns the depth to exactly its entry value (the increment is matched
by the unconditional decrement), and a complete traversal of any unit from the
entry state ends at depth 0. -/
theorem c7_depth_balanced :
    InlineTransformVisitor.new.generator_depth = 0 ∧
    (∀ (st : InlineTransformVisitor) (f : Function),
      (visitFunction st f).1.generator_depth = st.generator_depth) ∧
    (∀ (cm : Option Comments) (p : Program),
      (visitProgram (mkVisitor cm) p).1.generator_depth = 0) :=
  ⟨rfl, fun st f => (visitFunction_state st f).1,
    fun cm p => (visitProgram_state (mkVisitor cm) p).1⟩

/-- C8: a delegating yield with no argument is left completely unchanged — the
node is not replaced, no fault occurs, and the whole visitor state (the
transformed flag included) is untouched, so it can never trigger import
injection on its own. -/
theorem c8_argless_delegating_yield (st : InlineTransformVisitor) :
    visitExpr st (Expr.yieldE true OptExpr.none) =
      (st, Expr.yieldE true OptExpr.none) := by
  simp only [visitExpr]
  rw [show visitOptExpr st OptExpr.none = (st, OptExpr.none) from rfl]
  exact rewriteStep_skip _ (by intro x hx; cases hx)

/-- A script-form unit holding one generator with a delegating yield: input of
the C2 counterexample. -/
def c2Script : Script :=
  { body := [Stmt.fnDecl "gen" (Function.mk 0 true
      (StmtList.cons
        (Stmt.exprStmt (Expr.yieldE true (OptExpr.some (Expr.ident "foo"))))
        StmtList.nil))] }

/-- C2 as stated fails on script-form units: on this script the transform
performs a rewrite (the transformed flag is set and the delegating yield is
replaced), yet the resulting unit contains no inline import — visit_mut_script
never injects one, and a script body cannot hold an import declaration. -/
theorem c2_import_iff_cex :
    (visitScript (mkVisitor Option.none) c2Script).1.transformed = true ∧
    (visitScript (mkVisitor Option.none) c2Script).2 =
      { body := [Stmt.fnDecl "gen" (Function.mk 0 true
          (StmtList.cons (Stmt.exprStmt (yield_inline (Expr.ident "foo")))
            StmtList.nil))] } ∧
    programHasInlineImport
      (Program.script (visitScript (mkVisitor Option.none) c2Script).2) = false :=
  ⟨rfl, rfl, rfl⟩

/-- C2 (amended): for every module-form unit that is not skipped by the
file-level directive and contains no pre-existing item structurally equal to
the injected import, the transformed unit contains the injected import exactly
once and at position 0 when a rewrite occurred, and contains it zero times
when no rewrite occurred.  (Script-form units are excluded: they cannot hold
an import declaration and none is injected.) -/
theorem c2_import_iff_amended (cm : Option Comments) (m : Module)
    (h1 : firstIsDirectiveM m.body = false)
    (h2 : List.countP isInlineImport m.body = 0) :
    ((visitModule (mkVisitor cm) m).1.transformed = true →
      List.countP isInlineImport (visitModule (mkVisitor cm) m).2.body = 1 ∧
      (visitModule (mkVisitor cm) m).2.body.head? = Option.some inline_import) ∧
    ((visitModule (mkVisitor cm) m).1.transformed = false →
      List.countP isInlineImport (visitModule (mkVisitor cm) m).2.body = 0) := by
  have hcount := visitModuleItems_countInline (mkVisitor cm) m.body
  by_cases ht : (visitModuleItems (mkVisitor cm) m.body).1.transformed = true
  · have hm : visitModule (mkVisitor cm) m =
        ((visitModuleItems (mkVisitor cm) m.body).1,
          { body := inline_import :: (visitModuleItems (mkVisitor cm) m.body).2 }) := by
      unfold visitModule
      simp [h1, ht]
    rw [hm]
    constructor
    · intro _
      constructor
      · simp only [List.countP_cons, hcount, h2, isInlineImport, inline_import]
        rfl
      · rfl
    · intro hf
      rw [ht] at hf
      cases hf
  · have hm : visitModule (mkVisitor cm) m =
        ((visitModuleItems (mkVisitor cm) m.body).1,
          { body := (visitModuleItems (mkVisitor cm) m.body).2 }) := by
      unfold visitModule
      simp [h1, ht]
    rw [hm]
    constructor
    · intro htr
      exact absurd htr ht
    · intro _
      rw [hcount, h2]

/-- C2 witness: the amended statement at a one-generator module. -/
theorem c2_import_iff_amended_witness :
    firstIsDirectiveM [ModuleItem.stmtItem (Stmt.fnDecl "gen" (Function.mk 0 true
      (StmtList.cons
        (Stmt.exprStmt (Expr.yieldE true (OptExpr.some (Expr.ident "foo"))))
        StmtList.nil)))] = false ∧
    List.countP isInlineImport
      [ModuleItem.stmtItem (Stmt.fnDecl "gen" (Function.mk 0 true
        (StmtList.cons
          (Stmt.exprStmt (Expr.yieldE true (OptExpr.some (Expr.ident "foo"))))
          StmtList.nil)))] = 0 ∧
    (((visitModule (mkVisitor Option.none)
        { body := [ModuleItem.stmtItem (Stmt.fnDecl "gen" (Function.mk 0 true
          (StmtList.cons
            (Stmt.exprStmt (Expr.yieldE true (OptExpr.some (Expr.ident "foo"))))
            StmtList.nil)))] }).1.transformed = true →
      List.countP isInlineImport
        (visitModule (mkVisitor Option.none)
          { body := [ModuleItem.stmtItem (Stmt.fnDecl "gen" (Function.mk 0 true
            (StmtList.cons
              (Stmt.exprStmt (Expr.yieldE true (OptExpr.some (Expr.ident "foo"))))
              StmtList.nil)))] }).2.body = 1 ∧
      (visitModule (mkVisitor Option.none)
        { body := [ModuleItem.stmtItem (Stmt.fnDecl "gen" (Function.mk 0 true
          (StmtList.cons
            (Stmt.exprStmt (Expr.yieldE true (OptExpr.some (Expr.ident "foo"))))
            StmtList.nil)))] }).2.body.head? = Option.some inline_import) ∧
    ((visitModule (mkVisitor Option.none)
        { body := [ModuleItem.stmtItem (Stmt.fnDecl "gen" (Function.mk 0 true
          (StmtList.cons
            (Stmt.exprStmt (Expr.yieldE true (OptExpr.some (Expr.ident "foo"))))
            StmtList.nil)))] }).1.transformed = false →
      List.countP isInlineImport
        (visitModule (mkVisitor Option.none)
          { body := [ModuleItem.stmtItem (Stmt.fnDecl "gen" (Function.mk 0 true
            (StmtList.cons
              (Stmt.exprStmt (Expr.yieldE true (OptExpr.some (Expr.ident "foo"))))
              StmtList.nil)))] }).2.body = 0)) :=
  ⟨by decide, by decide, c2_import_iff_amended Option.none _ (by decide) (by decide)⟩

/-- The comment handle of the C4 counterexample: a block comment containing
`@noinline` attached to position 5 (the inner generator). -/
def cmC4 : Comments := fun lo =>
  if lo == 5 then
    Option.some [{ kind := CommentKind.block, text := "* @noinline " }]
  else Option.none

/-- The annotated inner generator of the C4 counterexample. -/
def c4Inner : Function :=
  Function.mk 5 true
    (StmtList.cons
      (Stmt.exprStmt (Expr.yieldE true (OptExpr.some (Expr.ident "x"))))
      StmtList.nil)

/-- A plain generator whose body declares the annotated generator. -/
def c4Outer : Function :=
  Function.mk 1 true
    (StmtList.cons (Stmt.exprStmt (Expr.fnExpr c4Inner)) StmtList.nil)

/-- C4 as stated fails: this generator carries a `@noinline` block comment,
yet — because it is nested inside a plain generator that already incremented
the depth — the delegating yield at its own depth is still rewritten. -/
theorem c4_noinline_cex :
    has_noinline (mkVisitor (Option.some cmC4)) 5 = true ∧
    (visitFunction (mkVisitor (Option.some cmC4)) c4Outer).2 =
      Function.mk 1 true
        (StmtList.cons (Stmt.exprStmt (Expr.fnExpr
          (Function.mk 5 true
            (StmtList.cons (Stmt.exprStmt (yield_inline (Expr.ident "x")))
              StmtList.nil))))
          StmtList.nil) :=
  ⟨rfl, rfl⟩

/-- The comment handle of the C4 amended demonstration: `@noinline` attached
to position 1 (the outer generator). -/
def cmC4b : Comments := fun lo =>
  if lo == 1 then
    Option.some [{ kind := CommentKind.block, text := "*@noinline*" }]
  else Option.none

/-- An annotated outer generator containing its own delegating yield and a
plain nested generator with a delegating yield. -/
def c4Outer2 : Function :=
  Function.mk 1 true
    (StmtList.cons
      (Stmt.exprStmt (Expr.yieldE true (OptExpr.some (Expr.ident "a"))))
      (StmtList.cons
        (Stmt.fnDecl "inner" (Function.mk 7 true
          (StmtList.cons
            (Stmt.exprStmt (Expr.yieldE true (OptExpr.some (Expr.ident "b"))))
            StmtList.nil)))
        StmtList.nil))

/-- C4 (amended): an annotated generator is visited without incrementing the
depth, so — provided the depth on entry is zero, i.e. the function is not
itself nested inside a rewriting generator — the delegating yields at its own
depth are not rewritten, while generators declared inside its body are still
visited normally and their delegating yields rewritten; the concrete
demonstration shows both effects at once. -/
theorem c4_noinline_amended :
    (∀ (st : InlineTransformVisitor) (sp : Nat) (body : StmtList),
      has_noinline st sp = true →
      visitFunction st (Function.mk sp true body) =
        ((visitStmts st body).1, Function.mk sp true (visitStmts st body).2)) ∧
    (∀ (st : InlineTransformVisitor) (a : OptExpr),
      st.generator_depth = 0 →
      visitExpr st (Expr.yieldE true a) =
        ((visitOptExpr st a).1, Expr.yieldE true (visitOptExpr st a).2)) ∧
    visitFunction (mkVisitor (Option.some cmC4b)) c4Outer2 =
      ({ generator_depth := 0, transformed := true, skip_file := false,
          comments := Option.some cmC4b },
        Function.mk 1 true
          (StmtList.cons
            (Stmt.exprStmt (Expr.yieldE true (OptExpr.some (Expr.ident "a"))))
            (StmtList.cons
              (Stmt.fnDecl "inner" (Function.mk 7 true
                (StmtList.cons
                  (Stmt.exprStmt (yield_inline (Expr.ident "b")))
                  StmtList.nil)))
              StmtList.nil))) := by
  refine ⟨?_, ?_, rfl⟩
  · intro st sp body h
    simp only [visitFunction, h, if_true]
  · intro st a h
    simp only [visitExpr]
    exact rewriteStep_zero _ (by rw [(visitOptExpr_state st a).1]; exact h)

/-- C4 witness: the amended statement applied to the annotated generator at
depth 0. -/
theorem c4_noinline_amended_witness :
    has_noinline (mkVisitor (Option.some cmC4)) 5 = true ∧
    visitFunction (mkVisitor (Option.some cmC4)) (Function.mk 5 true
      (StmtList.cons
        (Stmt.exprStmt (Expr.yieldE true (OptExpr.some (Expr.ident "x"))))
        StmtList.nil)) =
      ((visitStmts (mkVisitor (Option.some cmC4))
          (StmtList.cons
            (Stmt.exprStmt (Expr.yieldE true (OptExpr.some (Expr.ident "x"))))
            StmtList.nil)).1,
        Function.mk 5 true
          (visitStmts (mkVisitor (Option.some cmC4))
            (StmtList.cons
              (Stmt.exprStmt (Expr.yieldE true (OptExpr.some (Expr.ident "x"))))
              StmtList.nil)).2) :=
  ⟨by decide, c4_noinline_amended.1 (mkVisitor (Option.some cmC4)) 5 _ (by decide)⟩

/-- A module beginning with the `"no inline"` directive followed by a
generator with a delegating yield: input of the C5 counterexample. -/
def c5DirModule : Module :=
  { body := [ModuleItem.stmtItem (Stmt.exprStmt (Expr.lit "no inline")),
      ModuleItem.stmtItem (Stmt.fnDecl "g" (Function.mk 0 true
        (StmtList.cons
          (Stmt.exprStmt (Expr.yieldE true (OptExpr.some (Expr.ident "x"))))
          StmtList.nil)))] }

/-- C5 as stated fails: on a unit beginning with the directive the first pass
strips the directive and rewrites nothing, so a delegating yield remains in
the output; running the transform a second time on that output does perform a
further rewrite (the flag is set, the yield is replaced, the import is
injected). -/
theorem c5_second_pass_cex :
    (visitModule (mkVisitor Option.none)
      (visitModule (mkVisitor Option.none) c5DirModule).2).1.transformed = true ∧
    (visitModule (mkVisitor Option.none)
      (visitModule (mkVisitor Option.none) c5DirModule).2).2 =
      { body := [inline_import,
          ModuleItem.stmtItem (Stmt.fnDecl "g" (Function.mk 0 true
            (StmtList.cons (Stmt.exprStmt (yield_inline (Expr.ident "x")))
              StmtList.nil)))] } :=
  ⟨rfl, rfl⟩

/-- C5 (amended): for every unit that is NOT skipped by the file-level
directive, running the transform a second time on the first pass's output is a
complete no-op — it rewrites nothing, sets no flag, injects nothing and
returns the unit unchanged.  (On a directive-bearing unit the first pass
strips the directive, so a second pass can rewrite; and delegating yields may
survive the first pass where depth zero or a `@noinline` annotation protected
them, but the second pass still leaves them alone.) -/
theorem c5_second_pass_stable :
    (∀ (cm : Option Comments) (m : Module),
      firstIsDirectiveM m.body = false →
      visitModule (mkVisitor cm) ((visitModule (mkVisitor cm) m).2) =
        (mkVisitor cm, (visitModule (mkVisitor cm) m).2)) ∧
    (∀ (cm : Option Comments) (s : Script),
      firstIsDirectiveS s.body = false →
      visitScript (mkVisitor cm) ((visitScript (mkVisitor cm) s).2) =
        (mkVisitor cm, (visitScript (mkVisitor cm) s).2)) := by
  constructor
  · intro cm m h
    have key : ∀ (l : List ModuleItem), firstIsDirectiveM l = false →
        cleanModuleItems cm 0 l = true →
        visitModule (mkVisitor cm) { body := l } =
          (mkVisitor cm, { body := l }) := by
      intro l hdir hclean
      unfold visitModule
      simp only [hdir, Bool.false_eq_true, if_false]
      rw [visitModuleItems_id (mkVisitor cm) l hclean]
      simp [mkVisitor]
    by_cases ht : (visitModuleItems (mkVisitor cm) m.body).1.transformed = true
    · have hm : visitModule (mkVisitor cm) m =
          ((visitModuleItems (mkVisitor cm) m.body).1,
            { body := inline_import ::
                (visitModuleItems (mkVisitor cm) m.body).2 }) := by
        unfold visitModule
        simp [h, ht]
      rw [hm]
      apply key
      · rfl
      · simp only [cleanModuleItems, Bool.and_eq_true]
        exact ⟨rfl, visitModuleItems_clean (mkVisitor cm) m.body⟩
    · have hm : visitModule (mkVisitor cm) m =
          ((visitModuleItems (mkVisitor cm) m.body).1,
            { body := (visitModuleItems (mkVisitor cm) m.body).2 }) := by
        unfold visitModule
        simp [h, ht]
      rw [hm]
      apply key
      · rw [visitModuleItems_firstDir]
        exact h
      · exact visitModuleItems_clean (mkVisitor cm) m.body
  · intro cm s h
    have key : ∀ (l : List Stmt), firstIsDirectiveS l = false →
        cleanScriptStmts cm 0 l = true →
        visitScript (mkVisitor cm) { body := l } =
          (mkVisitor cm, { body := l }) := by
      intro l hdir hclean
      unfold visitScript
      simp only [hdir, Bool.false_eq_true, if_false]
      rw [visitScriptStmts_id (mkVisitor cm) l hclean]
    have hm : visitScript (mkVisitor cm) s =
        ((visitScriptStmts (mkVisitor cm) s.body).1,
          { body := (visitScriptStmts (mkVisitor cm) s.body).2 }) := by
      unfold visitScript
      simp [h]
    rw [hm]
    apply key
    · rw [visitScriptStmts_firstDir]
      exact h
    · exact visitScriptStmts_clean (mkVisitor cm) s.body

/-- C5 witness: second-pass stability on a concrete non-directive module. -/
theorem c5_second_pass_stable_witness :
    firstIsDirectiveM [ModuleItem.stmtItem (Stmt.fnDecl "g" (Function.mk 0 true
      (StmtList.cons
        (Stmt.exprStmt (Expr.yieldE true (OptExpr.some (Expr.ident "z"))))
        StmtList.nil)))] = false ∧
    visitModule (mkVisitor Option.none)
      ((visitModule (mkVisitor Option.none)
        { body := [ModuleItem.stmtItem (Stmt.fnDecl "g" (Function.mk 0 true
          (StmtList.cons
            (Stmt.exprStmt (Expr.yieldE true (OptExpr.some (Expr.ident "z"))))
            StmtList.nil)))] }).2) =
      (mkVisitor Option.none,
        (visitModule (mkVisitor Option.none)
          { body := [ModuleItem.stmtItem (Stmt.fnDecl "g" (Function.mk 0 true
            (StmtList.cons
              (Stmt.exprStmt (Expr.yieldE true (OptExpr.some (Expr.ident "z"))))
              StmtList.nil)))] }).2) :=
  ⟨by decide, c5_second_pass_stable.1 Option.none _ (by decide)⟩

/-- C9: the transform is a pure function of its inputs — the tree produced by
a visit depends on the incoming state only through the generator depth and the
comment handle (never through the transformed or skip flags or anything else),
and the plugin entry point runs every invocation from the same fresh initial
state built from the fixed constants, so structurally equal units with equal
comment handles produce structurally equal outputs. -/
theorem c9_pure_function :
    (∀ (st st' : InlineTransformVisitor) (e : Expr),
      st.generator_depth = st'.generator_depth →
      st.comments = st'.comments →
      (visitExpr st e).2 = (visitExpr st' e).2) ∧
    (∀ (cm : Option Comments) (p : Program),
      process_transform cm p = (visitProgram (mkVisitor cm) p).2) := by
  constructor
  · exact fun st st' e hd hc => visitExpr_ext st st' e hd hc
  · intro cm p
    cases cm with
    | none => rfl
    | some c => rfl

/-- C9 witness: two states differing in every field except depth and comments
produce the same tree on a delegating yield. -/
theorem c9_pure_function_witness :
    ({ generator_depth := 1, transformed := false, skip_file := false,
        comments := Option.none } : InlineTransformVisitor).generator_depth =
      ({ generator_depth := 1, transformed := true, skip_file := true,
          comments := Option.none } : InlineTransformVisitor).generator_depth ∧
    ({ generator_depth := 1, transformed := false, skip_file := false,
        comments := Option.none } : InlineTransformVisitor).comments =
      ({ generator_depth := 1, transformed := true, skip_file := true,
          comments := Option.none } : InlineTransformVisitor).comments ∧
    (visitExpr
      { generator_depth := 1, transformed := false, skip_file := false,
        comments := Option.none }
      (Expr.yieldE true (OptExpr.some (Expr.ident "q")))).2 =
    (visitExpr
      { generator_depth := 1, transformed := true, skip_file := true,
        comments := Option.none }
      (Expr.yieldE true (OptExpr.some (Expr.ident "q")))).2 :=
  ⟨rfl, rfl, c9_pure_function.1 _ _ _ rfl rfl⟩

/-- A module whose directive-shaped statement sits at position 1, after a
generator: input of the C10 demonstration. -/
def c10Module : Module :=
  { body := [ModuleItem.stmtItem (Stmt.fnDecl "g" (Function.mk 0 true
      (StmtList.cons
        (Stmt.exprStmt (Expr.yieldE true (OptExpr.some (Expr.ident "x"))))
        StmtList.nil))),
      ModuleItem.stmtItem (Stmt.exprStmt (Expr.lit "no inline"))] }

/-- A script whose directive-shaped statement sits at position 1, after a
generator: input of the C10 script-form demonstration. -/
def c10Script : Script :=
  { body := [Stmt.fnDecl "g" (Function.mk 0 true
      (StmtList.cons
        (Stmt.exprStmt (Expr.yieldE true (OptExpr.some (Expr.ident "y"))))
        StmtList.nil)),
      Stmt.exprStmt (Expr.lit "no inline")] }

/-- C10: a `"no inline"` string-literal statement anywhere other than the
first position does not disable the transform, for both unit forms — a module
takes the normal traversal-and-inject path and a script the normal traversal
path, the directive-shaped statement itself is left in place, and (concrete
demonstrations, one per form) eligible delegating yields are still rewritten
with the statement preserved at its position. -/
theorem c10_directive_not_first :
    (∀ (st : InlineTransformVisitor) (i : ModuleItem) (rest : List ModuleItem),
      is_no_inline_module_directive i = false →
      visitModule st { body := i :: rest } =
        (if (visitModuleItems st (i :: rest)).1.transformed then
          ((visitModuleItems st (i :: rest)).1,
            { body := inline_import :: (visitModuleItems st (i :: rest)).2 })
        else
          ((visitModuleItems st (i :: rest)).1,
            { body := (visitModuleItems st (i :: rest)).2 }))) ∧
    (∀ (st : InlineTransformVisitor) (s : Stmt) (rest : List Stmt),
      is_no_inline_directive s = false →
      visitScript st { body := s :: rest } =
        ((visitScriptStmts st (s :: rest)).1,
          { body := (visitScriptStmts st (s :: rest)).2 })) ∧
    (∀ st : InlineTransformVisitor,
      visitStmt st (Stmt.exprStmt (Expr.lit "no inline")) =
        (st, Stmt.exprStmt (Expr.lit "no inline"))) ∧
    visitModule (mkVisitor Option.none) c10Module =
      ({ generator_depth := 0, transformed := true, skip_file := false,
          comments := Option.none },
        { body := [inline_import,
            ModuleItem.stmtItem (Stmt.fnDecl "g" (Function.mk 0 true
              (StmtList.cons (Stmt.exprStmt (yield_inline (Expr.ident "x")))
                StmtList.nil))),
            ModuleItem.stmtItem (Stmt.exprStmt (Expr.lit "no inline"))] }) ∧
    visitScript (mkVisitor Option.none) c10Script =
      ({ generator_depth := 0, transformed := true, skip_file := false,
          comments := Option.none },
        { body := [Stmt.fnDecl "g" (Function.mk 0 true
            (StmtList.cons (Stmt.exprStmt (yield_inline (Expr.ident "y")))
              StmtList.nil)),
            Stmt.exprStmt (Expr.lit "no inline")] }) := by
  refine ⟨?_, ?_, ?_, rfl, rfl⟩
  · intro st i rest h
    unfold visitModule
    simp only [firstIsDirectiveM, h, Bool.false_eq_true, if_false]
  · intro st s rest h
    unfold visitScript
    simp only [firstIsDirectiveS, h, Bool.false_eq_true, if_false]
  · intro st
    simp only [visitStmt, visitExpr]
    rw [rewriteStep_skip _ (by intro x hx; cases hx)]

/-- C10 witness: the normal path is taken when the first item is not the
directive, for a concrete module and a concrete script. -/
theorem c10_directive_not_first_witness :
    is_no_inline_module_directive
      (ModuleItem.stmtItem (Stmt.ret OptExpr.none)) = false ∧
    visitModule (mkVisitor Option.none)
      { body := ModuleItem.stmtItem (Stmt.ret OptExpr.none) ::
          [ModuleItem.stmtItem (Stmt.exprStmt (Expr.lit "no inline"))] } =
      (if (visitModuleItems (mkVisitor Option.none)
            (ModuleItem.stmtItem (Stmt.ret OptExpr.none) ::
              [ModuleItem.stmtItem (Stmt.exprStmt (Expr.lit "no inline"))])).1.transformed
        then
          ((visitModuleItems (mkVisitor Option.none)
              (ModuleItem.stmtItem (Stmt.ret OptExpr.none) ::
                [ModuleItem.stmtItem (Stmt.exprStmt (Expr.lit "no inline"))])).1,
            { body := inline_import ::
                (visitModuleItems (mkVisitor Option.none)
                  (ModuleItem.stmtItem (Stmt.ret OptExpr.none) ::
                    [ModuleItem.stmtItem (Stmt.exprStmt (Expr.lit "no inline"))])).2 })
        else
          ((visitModuleItems (mkVisitor Option.none)
              (ModuleItem.stmtItem (Stmt.ret OptExpr.none) ::
                [ModuleItem.stmtItem (Stmt.exprStmt (Expr.lit "no inline"))])).1,
            { body := (visitModuleItems (mkVisitor Option.none)
                (ModuleItem.stmtItem (Stmt.ret OptExpr.none) ::
                  [ModuleItem.stmtItem (Stmt.exprStmt (Expr.lit "no inline"))])).2 })) ∧
    is_no_inline_directive (Stmt.ret OptExpr.none) = false ∧
    visitScript (mkVisitor Option.none)
      { body := Stmt.ret OptExpr.none ::
          [Stmt.exprStmt (Expr.lit "no inline")] } =
      ((visitScriptStmts (mkVisitor Option.none)
          (Stmt.ret OptExpr.none ::
            [Stmt.exprStmt (Expr.lit "no inline")])).1,
        { body := (visitScriptStmts (mkVisitor Option.none)
            (Stmt.ret OptExpr.none ::
              [Stmt.exprStmt (Expr.lit "no inline")])).2 }) :=
  ⟨by decide, c10_directive_not_first.1 _ _ _ (by decide),
    by decide, c10_directive_not_first.2.1 _ _ _ (by decide)⟩

end InlineSwc
